import Mathlib

/-!
# Verification of the PFCP Outer Header Creation IE decoder

Shallow embedding of `ParseOuterHeaderCreation` from `src/pfcp/outer_header.go`
(and its identical copy in the second source file), together with the
`HasTEID` / `HasIPv4` accessors, and proofs of the specified properties.

Modelling conventions:
* A Go byte is `Byte := Fin 256`; a `[]byte` payload is a `List Byte`.
* Go's `uint32(b0)<<24 | uint32(b1)<<16 | uint32(b2)<<8 | uint32(b3)` is
  `b0*2^24 + b1*2^16 + b2*2^8 + b3`: the byte values occupy disjoint bit
  ranges, so `|` coincides with `+` and no `uint32` overflow can occur
  (4 bytes < 2^32); the same holds for the 2- and 3-byte reads.
* A fallible Go function returning `(*T, error)` with exactly one of the two
  non-nil becomes `Except String T`; the error strings are the exact strings
  the Go code builds (`errors.New` / `fmt.Errorf` with `%d` rendered by
  `toString`).
* `net.IP(payload[a:b]).To4()` / `.To16()` evaluate, as values, to the bytes
  `payload[a:b]` (To4 of a 4-byte slice and To16 of a 16-byte slice are the
  identity on the bytes); the value-level decoder stores those bytes.  The
  aliasing behaviour of To4/To16 (they return the argument slice itself,
  a view into the caller's array, without copying) is modelled separately
  below for the memory-independence property.
-/

set_option maxRecDepth 100000

/-- A Go `byte`. -/
abbrev Byte := Fin 256

/-- `payload[i]` as a natural number (only used at indices the source has
bounds-checked; out of range defaults to 0). -/
def byteAt (payload : List Byte) (i : Nat) : Nat :=
  (payload.getD i default).val

/-- Big-endian read of 2 bytes, `uint16(payload[off])<<8 | uint16(payload[off+1])`. -/
def be2 (payload : List Byte) (off : Nat) : Nat :=
  byteAt payload off * 256 + byteAt payload (off + 1)

/-- Big-endian read of 3 bytes into a `uint32`,
`uint32(payload[off])<<16 | uint32(payload[off+1])<<8 | uint32(payload[off+2])`. -/
def be3 (payload : List Byte) (off : Nat) : Nat :=
  byteAt payload off * 65536 + byteAt payload (off + 1) * 256 + byteAt payload (off + 2)

/-- Big-endian read of 4 bytes into a `uint32`. -/
def be4 (payload : List Byte) (off : Nat) : Nat :=
  byteAt payload off * 16777216 + byteAt payload (off + 1) * 65536 +
    byteAt payload (off + 2) * 256 + byteAt payload (off + 3)

/-- The bytes `payload[off : off+n]`, the value stored for an address field. -/
def ipBytes (payload : List Byte) (off n : Nat) : List Byte :=
  (payload.drop off).take n

/-- `OuterHeaderCreationFields` of the source; Go zero values are the
defaults (`0` for integers, `nil`/`none` for the `net.IP` slices). -/
structure OuterHeaderCreationFields where
  OuterHeaderCreationDescription : Nat := 0
  TEID : Nat := 0
  IPv4Address : Option (List Byte) := none
  IPv6Address : Option (List Byte) := none
  PortNumber : Nat := 0
  CTag : Nat := 0
  STag : Nat := 0
deriving Repr, DecidableEq

/-- `(oct5&0x01) != 0 || (oct5&0x02) != 0` — the source's TEID condition. -/
def teidPresent (oct5 : Nat) : Bool :=
  oct5 &&& 0x01 != 0 || oct5 &&& 0x02 != 0

/-- `(oct5&0x01) != 0 || (oct5&0x04) != 0 || (oct5&0x10) != 0` — IPv4 condition. -/
def ipv4Present (oct5 : Nat) : Bool :=
  oct5 &&& 0x01 != 0 || oct5 &&& 0x04 != 0 || oct5 &&& 0x10 != 0

/-- `(oct5&0x02) != 0 || (oct5&0x08) != 0 || (oct5&0x20) != 0` — IPv6 condition. -/
def ipv6Present (oct5 : Nat) : Bool :=
  oct5 &&& 0x02 != 0 || oct5 &&& 0x08 != 0 || oct5 &&& 0x20 != 0

/-- `(oct5&0x04) != 0 || (oct5&0x08) != 0` — Port condition. -/
def portPresent (oct5 : Nat) : Bool :=
  oct5 &&& 0x04 != 0 || oct5 &&& 0x08 != 0

/-- `(oct5 & 0x40) != 0` — C-TAG condition. -/
def ctagPresent (oct5 : Nat) : Bool :=
  oct5 &&& 0x40 != 0

/-- `(oct5 & 0x80) != 0` — S-TAG condition. -/
def stagPresent (oct5 : Nat) : Bool :=
  oct5 &&& 0x80 != 0

/-- The error string `fmt.Errorf("OuterHeaderCreation: insufficient bytes for %s at offset %d", ...)`. -/
def insufficientMsg (name : String) (off : Nat) : String :=
  "OuterHeaderCreation: insufficient bytes for " ++ name ++ " at offset " ++ toString off

/-- The `errors.New` string of the length-precondition check. -/
def tooShortMsg : String :=
  "OuterHeaderCreation payload too short: need at least 2 bytes"

/-- One conditional field block of the source decoder: its presence
condition (already evaluated on `oct5`), the field name used in the error
message, the byte width, and the record update performed at a given offset.
The type is parametric in the result record so the same sequential decoder
can also drive the slice-aliasing model below. -/
structure FieldDesc (F : Type) where
  present : Bool
  name : String
  width : Nat
  set : F → Nat → F

/-- One `if present { if l < offset+width { return error } ...; offset += width }`
block of the source, acting on the (fields, offset) state. -/
def runStep {F : Type} (payload : List Byte) (d : FieldDesc F) (st : F × Nat) :
    Except String (F × Nat) :=
  if d.present then
    if payload.length < st.2 + d.width then
      .error (insufficientMsg d.name st.2)
    else
      .ok (d.set st.1 st.2, st.2 + d.width)
  else
    .ok st

/-- The source's straight-line sequence of conditional field blocks,
with the early `return nil, err` of each block modelled by `Except` bind. -/
def runSteps {F : Type} (payload : List Byte) :
    List (FieldDesc F) → F × Nat → Except String (F × Nat)
  | [], st => .ok st
  | d :: ds, st =>
    match runStep payload d st with
    | .error e => .error e
    | .ok st' => runSteps payload ds st'

/-- The six conditional blocks of `ParseOuterHeaderCreation`, in source
order TEID, IPv4, IPv6, Port, C-TAG, S-TAG with widths 4, 4, 16, 2, 3, 3. -/
def ohcDescs (payload : List Byte) (oct5 : Nat) :
    List (FieldDesc OuterHeaderCreationFields) :=
  [⟨teidPresent oct5, "TEID", 4, fun f off => { f with TEID := be4 payload off }⟩,
   ⟨ipv4Present oct5, "IPv4", 4, fun f off => { f with IPv4Address := some (ipBytes payload off 4) }⟩,
   ⟨ipv6Present oct5, "IPv6", 16, fun f off => { f with IPv6Address := some (ipBytes payload off 16) }⟩,
   ⟨portPresent oct5, "Port", 2, fun f off => { f with PortNumber := be2 payload off }⟩,
   ⟨ctagPresent oct5, "C-TAG", 3, fun f off => { f with CTag := be3 payload off }⟩,
   ⟨stagPresent oct5, "S-TAG", 3, fun f off => { f with STag := be3 payload off }⟩]

/-- `f := &OuterHeaderCreationFields{}` followed by
`f.OuterHeaderCreationDescription = uint16(payload[0])<<8 | uint16(payload[1])`. -/
def initFields (payload : List Byte) : OuterHeaderCreationFields :=
  { OuterHeaderCreationDescription := byteAt payload 0 * 256 + byteAt payload 1 }

/-- `ParseOuterHeaderCreation` of `src/pfcp/outer_header.go`: length
precondition, big-endian description word from bytes 0..1, flag octet
`oct5 := payload[0]`, then the six conditional blocks starting at offset 2. -/
def ParseOuterHeaderCreation (payload : List Byte) :
    Except String OuterHeaderCreationFields :=
  if payload.length < 2 then
    .error tooShortMsg
  else
    match runSteps payload (ohcDescs payload (byteAt payload 0)) (initFields payload, 2) with
    | .error e => .error e
    | .ok st => .ok st.1

/-- `HasTEID` of the source: recover the flag octet from the stored
description's high byte and re-test bits 1 and 2. -/
def OuterHeaderCreationFields.HasTEID (f : OuterHeaderCreationFields) : Bool :=
  let oct5 := (f.OuterHeaderCreationDescription &&& 0xff00) >>> 8
  oct5 &&& 0x01 != 0 || oct5 &&& 0x02 != 0

/-- `HasIPv4` of the source: bits 1, 3, 5 of the description's high byte. -/
def OuterHeaderCreationFields.HasIPv4 (f : OuterHeaderCreationFields) : Bool :=
  let oct5 := (f.OuterHeaderCreationDescription &&& 0xff00) >>> 8
  oct5 &&& 0x01 != 0 || oct5 &&& 0x04 != 0 || oct5 &&& 0x10 != 0

/-- Modelled from the spec: a `HasIPv6` accessor is not present in the
source files, but §4.1 requires every presence predicate to be exposed as
an accessor recomputed from the stored `description` (bits 2, 4, 6 of its
high byte), in the exact shape of the source's `HasTEID`/`HasIPv4`. -/
def OuterHeaderCreationFields.HasIPv6 (f : OuterHeaderCreationFields) : Bool :=
  let oct5 := (f.OuterHeaderCreationDescription &&& 0xff00) >>> 8
  oct5 &&& 0x02 != 0 || oct5 &&& 0x08 != 0 || oct5 &&& 0x20 != 0

/-- Modelled from the spec: `HasPortNumber` accessor (bits 3, 4), missing
from the source files, in the shape of the source's `HasTEID`. -/
def OuterHeaderCreationFields.HasPortNumber (f : OuterHeaderCreationFields) : Bool :=
  let oct5 := (f.OuterHeaderCreationDescription &&& 0xff00) >>> 8
  oct5 &&& 0x04 != 0 || oct5 &&& 0x08 != 0

/-- Modelled from the spec: `HasCTag` accessor (bit 7), missing from the
source files, in the shape of the source's `HasTEID`. -/
def OuterHeaderCreationFields.HasCTag (f : OuterHeaderCreationFields) : Bool :=
  let oct5 := (f.OuterHeaderCreationDescription &&& 0xff00) >>> 8
  oct5 &&& 0x40 != 0

/-- Modelled from the spec: `HasSTag` accessor (bit 8), missing from the
source files, in the shape of the source's `HasTEID`. -/
def OuterHeaderCreationFields.HasSTag (f : OuterHeaderCreationFields) : Bool :=
  let oct5 := (f.OuterHeaderCreationDescription &&& 0xff00) >>> 8
  oct5 &&& 0x80 != 0

/-- Total number of payload bytes the present fields of a descriptor list
consume. -/
def needed {F : Type} : List (FieldDesc F) → Nat
  | [] => 0
  | d :: ds => (if d.present then d.width else 0) + needed ds

/-- The record produced by applying every present descriptor's update at
its cumulative offset. -/
def foldSet {F : Type} : List (FieldDesc F) → F → Nat → F
  | [], f, _ => f
  | d :: ds, f, off =>
    if d.present then foldSet ds (d.set f off) (off + d.width) else foldSet ds f off

/-- The first present descriptor that does not fit in a buffer of length
`l` when reading starts at `off`, with the offset at which it was tried. -/
def firstShortD {F : Type} (l : Nat) : List (FieldDesc F) → Nat → Option (String × Nat)
  | [], _ => none
  | d :: ds, off =>
    if d.present then
      if l < off + d.width then some (d.name, off)
      else firstShortD l ds (off + d.width)
    else firstShortD l ds off

/-- The payload length a given flag octet requires for success: 2 header
bytes plus the width of each flag-selected sub-field, counted once. -/
def requiredLen (oct5 : Nat) : Nat :=
  2 + (if teidPresent oct5 then 4 else 0) + (if ipv4Present oct5 then 4 else 0) +
    (if ipv6Present oct5 then 16 else 0) + (if portPresent oct5 then 2 else 0) +
    (if ctagPresent oct5 then 3 else 0) + (if stagPresent oct5 then 3 else 0)

/-- Pointwise agreement of two descriptors whose reads stay below `bound`:
same presence, name and width, and the same record update wherever the
whole read fits under `bound`. -/
def DescAgree {F : Type} (bound : Nat) (d d' : FieldDesc F) : Prop :=
  d.present = d'.present ∧ d.name = d'.name ∧ d.width = d'.width ∧
    ∀ f off, off + d.width ≤ bound → d.set f off = d'.set f off

/-- `ParseOuterHeaderCreation` of the second source file (the unnamed copy
of the parser), transcribed separately with its six conditional blocks
inlined: the state is threaded by matching on each block's outcome, every
presence condition is written out, the byte reads are written out, and the
error strings are written as the `fmt.Errorf` format strings with only the
offset substituted. The Go code of this copy differs from the first only
in using `github.com/pkg/errors` for the same length-error message. -/
def ParseOuterHeaderCreation2 (payload : List Byte) :
    Except String OuterHeaderCreationFields :=
  let l := payload.length
  if l < 2 then
    .error ("OuterHeaderCreation payload too short: need at least 2 bytes")
  else
    let oct5 := byteAt payload 0
    let f0 : OuterHeaderCreationFields :=
      { OuterHeaderCreationDescription := oct5 * 256 + byteAt payload 1 }
    let st1 : Except String (OuterHeaderCreationFields × Nat) :=
      if oct5 &&& 0x01 != 0 || oct5 &&& 0x02 != 0 then
        if l < 2 + 4 then
          .error ("OuterHeaderCreation: insufficient bytes for TEID at offset " ++ toString 2)
        else
          .ok ({ f0 with
                  TEID := byteAt payload 2 * 16777216 + byteAt payload 3 * 65536 +
                    byteAt payload 4 * 256 + byteAt payload 5 }, 2 + 4)
      else .ok (f0, 2)
    match st1 with
    | .error e => .error e
    | .ok (f, offset) =>
      let st2 : Except String (OuterHeaderCreationFields × Nat) :=
        if oct5 &&& 0x01 != 0 || oct5 &&& 0x04 != 0 || oct5 &&& 0x10 != 0 then
          if l < offset + 4 then
            .error ("OuterHeaderCreation: insufficient bytes for IPv4 at offset " ++ toString offset)
          else
            .ok ({ f with IPv4Address := some ((payload.drop offset).take 4) }, offset + 4)
        else .ok (f, offset)
      match st2 with
      | .error e => .error e
      | .ok (f, offset) =>
        let st3 : Except String (OuterHeaderCreationFields × Nat) :=
          if oct5 &&& 0x02 != 0 || oct5 &&& 0x08 != 0 || oct5 &&& 0x20 != 0 then
            if l < offset + 16 then
              .error ("OuterHeaderCreation: insufficient bytes for IPv6 at offset " ++ toString offset)
            else
              .ok ({ f with IPv6Address := some ((payload.drop offset).take 16) }, offset + 16)
          else .ok (f, offset)
        match st3 with
        | .error e => .error e
        | .ok (f, offset) =>
          let st4 : Except String (OuterHeaderCreationFields × Nat) :=
            if oct5 &&& 0x04 != 0 || oct5 &&& 0x08 != 0 then
              if l < offset + 2 then
                .error ("OuterHeaderCreation: insufficient bytes for Port at offset " ++ toString offset)
              else
                .ok ({ f with PortNumber := byteAt payload offset * 256 + byteAt payload (offset + 1) },
                  offset + 2)
            else .ok (f, offset)
          match st4 with
          | .error e => .error e
          | .ok (f, offset) =>
            let st5 : Except String (OuterHeaderCreationFields × Nat) :=
              if oct5 &&& 0x40 != 0 then
                if l < offset + 3 then
                  .error ("OuterHeaderCreation: insufficient bytes for C-TAG at offset " ++ toString offset)
                else
                  .ok ({ f with
                          CTag := byteAt payload offset * 65536 + byteAt payload (offset + 1) * 256 +
                            byteAt payload (offset + 2) }, offset + 3)
              else .ok (f, offset)
            match st5 with
            | .error e => .error e
            | .ok (f, offset) =>
              let st6 : Except String (OuterHeaderCreationFields × Nat) :=
                if oct5 &&& 0x80 != 0 then
                  if l < offset + 3 then
                    .error ("OuterHeaderCreation: insufficient bytes for S-TAG at offset " ++ toString offset)
                  else
                    .ok ({ f with
                            STag := byteAt payload offset * 65536 + byteAt payload (offset + 1) * 256 +
                              byteAt payload (offset + 2) }, offset + 3)
                else .ok (f, offset)
              match st6 with
              | .error e => .error e
              | .ok (f, _) => .ok f

/-- A Go slice header into the input payload's backing array: start offset
and length. `net.IP(payload[off : off+n])` produces the header `⟨off, n⟩`;
`To4` on a slice whose length is already 4, and `To16` on one of length 16,
return the receiver itself (Go stdlib `net.IP.To4` / `To16`), so the stored
`net.IP` remains a view into the caller's buffer — no bytes are copied. -/
structure IPSlice where
  start : Nat
  len : Nat
deriving Repr, DecidableEq

/-- `OuterHeaderCreationFields` at the Go memory level: the two `net.IP`
fields hold slice headers pointing into the input buffer. -/
structure OuterHeaderCreationRaw where
  OuterHeaderCreationDescription : Nat := 0
  TEID : Nat := 0
  IPv4Address : Option IPSlice := none
  IPv6Address : Option IPSlice := none
  PortNumber : Nat := 0
  CTag : Nat := 0
  STag : Nat := 0
deriving Repr, DecidableEq

/-- The bytes a stored `net.IP` denotes, read through the CURRENT contents
of the buffer it points into. -/
def readIP (buf : List Byte) (s : IPSlice) : List Byte :=
  (buf.drop s.start).take s.len

/-- The six conditional blocks at the memory level: identical to
`ohcDescs` except that the `net.IP` assignments on lines 63 and 72 of the
source store the slice header returned by `To4` / `To16` instead of copied
bytes. -/
def ohcDescsRaw (payload : List Byte) (oct5 : Nat) :
    List (FieldDesc OuterHeaderCreationRaw) :=
  [⟨teidPresent oct5, "TEID", 4, fun f off => { f with TEID := be4 payload off }⟩,
   ⟨ipv4Present oct5, "IPv4", 4, fun f off => { f with IPv4Address := some ⟨off, 4⟩ }⟩,
   ⟨ipv6Present oct5, "IPv6", 16, fun f off => { f with IPv6Address := some ⟨off, 16⟩ }⟩,
   ⟨portPresent oct5, "Port", 2, fun f off => { f with PortNumber := be2 payload off }⟩,
   ⟨ctagPresent oct5, "C-TAG", 3, fun f off => { f with CTag := be3 payload off }⟩,
   ⟨stagPresent oct5, "S-TAG", 3, fun f off => { f with STag := be3 payload off }⟩]

/-- `ParseOuterHeaderCreation` at the Go memory level (slice headers kept,
nothing copied). -/
def ParseOuterHeaderCreationRaw (payload : List Byte) :
    Except String OuterHeaderCreationRaw :=
  if payload.length < 2 then
    .error tooShortMsg
  else
    match runSteps payload (ohcDescsRaw payload (byteAt payload 0))
        ({ OuterHeaderCreationDescription := byteAt payload 0 * 256 + byteAt payload 1 }, 2) with
    | .error e => .error e
    | .ok st => .ok st.1

/-- Spec scenario 1's payload (`01 00 | 00000001 | 0A000001`), used as the
concrete input of several witnesses. -/
def samplePayload1 : List Byte :=
  [0x01, 0x00, 0x00, 0x00, 0x00, 0x01, 0x0a, 0x00, 0x00, 0x01]

/-- The decode result of `samplePayload1`. -/
def sampleFields1 : OuterHeaderCreationFields :=
  { OuterHeaderCreationDescription := 0x0100, TEID := 1,
    IPv4Address := some [0x0a, 0x00, 0x00, 0x01] }

/-- `samplePayload1` after the in-place writes `payload[6] = 0xff;
payload[7] = 0xff` performed by the repository's memory-independence
test after decoding. -/
def mutatedPayload1 : List Byte :=
  (samplePayload1.set 6 0xff).set 7 0xff

theorem runSteps_of_le {F : Type} (payload : List Byte) :
    ∀ (ds : List (FieldDesc F)) (f : F) (off : Nat),
      off + needed ds ≤ payload.length →
      runSteps payload ds (f, off) = .ok (foldSet ds f off, off + needed ds) := by
  intro ds
  induction ds with
  | nil => intro f off h; simp [runSteps, needed, foldSet]
  | cons d ds ih =>
    intro f off h
    by_cases hp : d.present
    · have hn : needed (d :: ds) = d.width + needed ds := by simp [needed, hp]
      have hw : ¬ payload.length < off + d.width := by omega
      have h2 : (off + d.width) + needed ds ≤ payload.length := by omega
      have hfold : foldSet (d :: ds) f off = foldSet ds (d.set f off) (off + d.width) := by
        simp [foldSet, hp]
      have hoff : off + d.width + needed ds = off + needed (d :: ds) := by omega
      rw [show runSteps payload (d :: ds) (f, off) =
            runSteps payload ds (d.set f off, off + d.width) by
          simp [runSteps, runStep, hp, hw],
        ih _ _ h2, hfold, hoff]
    · have hn : needed (d :: ds) = needed ds := by simp [needed, hp]
      have h2 : off + needed ds ≤ payload.length := by omega
      have hfold : foldSet (d :: ds) f off = foldSet ds f off := by simp [foldSet, hp]
      rw [show runSteps payload (d :: ds) (f, off) = runSteps payload ds (f, off) by
          simp [runSteps, runStep, hp],
        ih _ _ h2, hfold, hn]

theorem firstShortD_none_iff {F : Type} (l : Nat) :
    ∀ (ds : List (FieldDesc F)) (off : Nat), off ≤ l →
      (firstShortD l ds off = none ↔ off + needed ds ≤ l) := by
  intro ds
  induction ds with
  | nil => intro off h; simp [firstShortD, needed]; omega
  | cons d ds ih =>
    intro off hoff
    by_cases hp : d.present
    · by_cases hw : l < off + d.width
      · have hn : needed (d :: ds) = d.width + needed ds := by simp [needed, hp]
        simp [firstShortD, hp, hw]; omega
      · have hn : needed (d :: ds) = d.width + needed ds := by simp [needed, hp]
        have := ih (off + d.width) (by omega)
        simp [firstShortD, hp, hw, this]; omega
    · have hn : needed (d :: ds) = needed ds := by simp [needed, hp]
      have := ih off hoff
      simp [firstShortD, hp, this]; omega

theorem runSteps_of_firstShort {F : Type} (payload : List Byte) :
    ∀ (ds : List (FieldDesc F)) (f : F) (off : Nat) (n : String) (o : Nat),
      firstShortD payload.length ds off = some (n, o) →
      runSteps payload ds (f, off) = .error (insufficientMsg n o) := by
  intro ds
  induction ds with
  | nil => intro f off n o h; simp [firstShortD] at h
  | cons d ds ih =>
    intro f off n o h
    by_cases hp : d.present
    · by_cases hw : payload.length < off + d.width
      · simp [firstShortD, hp, hw] at h
        obtain ⟨h1, h2⟩ := h
        subst h1; subst h2
        simp [runSteps, runStep, hp, hw]
      · simp [firstShortD, hp, hw] at h
        simp [runSteps, runStep, hp, hw]
        exact ih _ _ _ _ h
    · simp [firstShortD, hp] at h
      simp [runSteps, runStep, hp]
      exact ih _ _ _ _ h

/-- Every record invariant preserved by each descriptor's update survives a
successful run. -/
theorem runSteps_inv {F : Type} (payload : List Byte) (P : F → Prop) :
    ∀ (ds : List (FieldDesc F)) (f : F) (off : Nat) (f' : F) (off' : Nat),
      (∀ d ∈ ds, ∀ g o, P g → P (d.set g o)) → P f →
      runSteps payload ds (f, off) = .ok (f', off') → P f' := by
  intro ds
  induction ds with
  | nil => intro f off f' off' _ hf h; simp [runSteps] at h; rw [← h.1]; exact hf
  | cons d ds ih =>
    intro f off f' off' hset hf h
    by_cases hp : d.present
    · by_cases hw : payload.length < off + d.width
      · simp [runSteps, runStep, hp, hw] at h
      · simp [runSteps, runStep, hp, hw] at h
        exact ih _ _ _ _ (fun d hd => hset d (List.mem_cons_of_mem _ hd))
          (hset d (List.mem_cons_self _ _) _ _ hf) h
    · simp [runSteps, runStep, hp] at h
      exact ih _ _ _ _ (fun d hd => hset d (List.mem_cons_of_mem _ hd)) hf h

theorem needed_ohcDescs (payload : List Byte) (oct5 : Nat) :
    2 + needed (ohcDescs payload oct5) = requiredLen oct5 := by
  simp only [needed, ohcDescs, requiredLen]
  split_ifs <;> omega

theorem parse_err_short (payload : List Byte) (h : payload.length < 2) :
    ParseOuterHeaderCreation payload = .error tooShortMsg := by
  simp [ParseOuterHeaderCreation, h]

theorem parse_ok_of_le (payload : List Byte) (h2 : 2 ≤ payload.length)
    (hreq : requiredLen (byteAt payload 0) ≤ payload.length) :
    ParseOuterHeaderCreation payload =
      .ok (foldSet (ohcDescs payload (byteAt payload 0)) (initFields payload) 2) := by
  have hb : 2 + needed (ohcDescs payload (byteAt payload 0)) ≤ payload.length := by
    rw [needed_ohcDescs]; exact hreq
  rw [ParseOuterHeaderCreation, if_neg (by omega),
    runSteps_of_le payload _ (initFields payload) 2 hb]

theorem parse_err_of_firstShort (payload : List Byte) (n : String) (o : Nat)
    (h2 : 2 ≤ payload.length)
    (h : firstShortD payload.length (ohcDescs payload (byteAt payload 0)) 2 = some (n, o)) :
    ParseOuterHeaderCreation payload = .error (insufficientMsg n o) := by
  rw [ParseOuterHeaderCreation, if_neg (by omega),
    runSteps_of_firstShort payload _ (initFields payload) 2 n o h]

theorem parse_isOk_iff (payload : List Byte) :
    (∃ f, ParseOuterHeaderCreation payload = .ok f) ↔
      2 ≤ payload.length ∧ requiredLen (byteAt payload 0) ≤ payload.length := by
  constructor
  · rintro ⟨f, hf⟩
    by_cases h2 : 2 ≤ payload.length
    · refine ⟨h2, ?_⟩
      by_contra hreq
      have hnone :
          firstShortD payload.length (ohcDescs payload (byteAt payload 0)) 2 ≠ none := by
        intro hn
        rw [firstShortD_none_iff payload.length _ 2 h2] at hn
        rw [needed_ohcDescs] at hn
        exact hreq hn
      obtain ⟨⟨n, o⟩, hsome⟩ := Option.ne_none_iff_exists'.mp hnone
      rw [parse_err_of_firstShort payload n o h2 hsome] at hf
      exact Except.noConfusion hf
    · rw [parse_err_short payload (by omega)] at hf
      exact Except.noConfusion hf
  · rintro ⟨h2, hreq⟩
    exact ⟨_, parse_ok_of_le payload h2 hreq⟩

theorem byteAt_append (p e : List Byte) (i : Nat) (h : i < p.length) :
    byteAt (p ++ e) i = byteAt p i := by
  unfold byteAt
  rw [List.getD_append p e default i h]

theorem byteAt_take (p : List Byte) (k i : Nat) (h : i < k) :
    byteAt (p.take k) i = byteAt p i := by
  unfold byteAt
  simp [List.getD_eq_getElem?_getD, List.getElem?_take, h]

theorem be2_append (p e : List Byte) (off : Nat) (h : off + 2 ≤ p.length) :
    be2 (p ++ e) off = be2 p off := by
  unfold be2
  rw [byteAt_append _ _ _ (by omega), byteAt_append _ _ _ (by omega)]

theorem be3_append (p e : List Byte) (off : Nat) (h : off + 3 ≤ p.length) :
    be3 (p ++ e) off = be3 p off := by
  unfold be3
  rw [byteAt_append _ _ _ (by omega), byteAt_append _ _ _ (by omega),
    byteAt_append _ _ _ (by omega)]

theorem be4_append (p e : List Byte) (off : Nat) (h : off + 4 ≤ p.length) :
    be4 (p ++ e) off = be4 p off := by
  unfold be4
  rw [byteAt_append _ _ _ (by omega), byteAt_append _ _ _ (by omega),
    byteAt_append _ _ _ (by omega), byteAt_append _ _ _ (by omega)]

theorem be2_take (p : List Byte) (k off : Nat) (h : off + 2 ≤ k) :
    be2 (p.take k) off = be2 p off := by
  unfold be2
  rw [byteAt_take _ _ _ (by omega), byteAt_take _ _ _ (by omega)]

theorem be3_take (p : List Byte) (k off : Nat) (h : off + 3 ≤ k) :
    be3 (p.take k) off = be3 p off := by
  unfold be3
  rw [byteAt_take _ _ _ (by omega), byteAt_take _ _ _ (by omega),
    byteAt_take _ _ _ (by omega)]

theorem be4_take (p : List Byte) (k off : Nat) (h : off + 4 ≤ k) :
    be4 (p.take k) off = be4 p off := by
  unfold be4
  rw [byteAt_take _ _ _ (by omega), byteAt_take _ _ _ (by omega),
    byteAt_take _ _ _ (by omega), byteAt_take _ _ _ (by omega)]

theorem ipBytes_append (p e : List Byte) (off n : Nat) (h : off + n ≤ p.length) :
    ipBytes (p ++ e) off n = ipBytes p off n := by
  unfold ipBytes
  rw [List.drop_append_of_le_length (by omega),
    List.take_append_of_le_length (by simp; omega)]

theorem ipBytes_take (p : List Byte) (k off n : Nat) (h : off + n ≤ k) :
    ipBytes (p.take k) off n = ipBytes p off n := by
  unfold ipBytes
  rw [List.drop_take, List.take_take]
  congr 1
  omega

theorem needed_congr {F : Type} {bound : Nat} {ds ds' : List (FieldDesc F)}
    (h : List.Forall₂ (DescAgree bound) ds ds') : needed ds = needed ds' := by
  induction h with
  | nil => rfl
  | cons hd _ ih =>
    obtain ⟨hp, _, hw, _⟩ := hd
    simp [needed, hp, hw, ih]

theorem foldSet_congr {F : Type} {bound : Nat} {ds ds' : List (FieldDesc F)}
    (h : List.Forall₂ (DescAgree bound) ds ds') :
    ∀ (f : F) (off : Nat), off + needed ds ≤ bound →
      foldSet ds f off = foldSet ds' f off := by
  induction h with
  | nil => intro f off _; rfl
  | @cons d d' ds ds' hd _ ih =>
    intro f off hoff
    obtain ⟨hp, _, hw, hs⟩ := hd
    by_cases hpres : d.present
    · have hn : needed (d :: ds) = d.width + needed ds := by simp [needed, hpres]
      rw [show foldSet (d :: ds) f off = foldSet ds (d.set f off) (off + d.width) by
          simp [foldSet, hpres],
        show foldSet (d' :: ds') f off = foldSet ds' (d'.set f off) (off + d'.width) by
          simp [foldSet, ← hp, hpres],
        ← hw, hs f off (by omega)]
      exact ih _ _ (by omega)
    · have hn : needed (d :: ds) = needed ds := by simp [needed, hpres]
      rw [show foldSet (d :: ds) f off = foldSet ds f off by simp [foldSet, hpres],
        show foldSet (d' :: ds') f off = foldSet ds' f off by simp [foldSet, ← hp, hpres]]
      exact ih _ _ (by omega)

theorem ohcDescs_agree_append (p e : List Byte) (oct5 : Nat) :
    List.Forall₂ (DescAgree p.length) (ohcDescs p oct5) (ohcDescs (p ++ e) oct5) := by
  unfold ohcDescs
  refine .cons ⟨rfl, rfl, rfl, fun f off h => ?_⟩
    (.cons ⟨rfl, rfl, rfl, fun f off h => ?_⟩
      (.cons ⟨rfl, rfl, rfl, fun f off h => ?_⟩
        (.cons ⟨rfl, rfl, rfl, fun f off h => ?_⟩
          (.cons ⟨rfl, rfl, rfl, fun f off h => ?_⟩
            (.cons ⟨rfl, rfl, rfl, fun f off h => ?_⟩ .nil)))))
  all_goals dsimp only at h ⊢
  · rw [be4_append p e off h]
  · rw [ipBytes_append p e off 4 h]
  · rw [ipBytes_append p e off 16 h]
  · rw [be2_append p e off h]
  · rw [be3_append p e off h]
  · rw [be3_append p e off h]

theorem ohcDescs_agree_take (p : List Byte) (k : Nat) (oct5 : Nat) :
    List.Forall₂ (DescAgree k) (ohcDescs p oct5) (ohcDescs (p.take k) oct5) := by
  unfold ohcDescs
  refine .cons ⟨rfl, rfl, rfl, fun f off h => ?_⟩
    (.cons ⟨rfl, rfl, rfl, fun f off h => ?_⟩
      (.cons ⟨rfl, rfl, rfl, fun f off h => ?_⟩
        (.cons ⟨rfl, rfl, rfl, fun f off h => ?_⟩
          (.cons ⟨rfl, rfl, rfl, fun f off h => ?_⟩
            (.cons ⟨rfl, rfl, rfl, fun f off h => ?_⟩ .nil)))))
  all_goals dsimp only at h ⊢
  · rw [be4_take p k off h]
  · rw [ipBytes_take p k off 4 h]
  · rw [ipBytes_take p k off 16 h]
  · rw [be2_take p k off h]
  · rw [be3_take p k off h]
  · rw [be3_take p k off h]

theorem requiredLen_ge_two (oct5 : Nat) : 2 ≤ requiredLen oct5 := by
  unfold requiredLen
  split_ifs <;> omega

theorem parse_append (p e : List Byte) (f : OuterHeaderCreationFields)
    (h : ParseOuterHeaderCreation p = .ok f) :
    ParseOuterHeaderCreation (p ++ e) = .ok f := by
  obtain ⟨h2, hreq⟩ := (parse_isOk_iff p).mp ⟨f, h⟩
  have h0 : byteAt (p ++ e) 0 = byteAt p 0 := byteAt_append p e 0 (by omega)
  have h1 : byteAt (p ++ e) 1 = byteAt p 1 := byteAt_append p e 1 (by omega)
  have hlen : p.length ≤ (p ++ e).length := by simp
  have hok := parse_ok_of_le (p ++ e) (by omega) (by rw [h0]; omega)
  rw [hok]
  have hinit : initFields (p ++ e) = initFields p := by
    unfold initFields; rw [h0, h1]
  rw [h0, hinit]
  have hb : 2 + needed (ohcDescs p (byteAt p 0)) ≤ p.length := by
    rw [needed_ohcDescs]; omega
  rw [← foldSet_congr (ohcDescs_agree_append p e (byteAt p 0)) (initFields p) 2 hb]
  rw [parse_ok_of_le p h2 hreq] at h
  exact h

theorem parse_take (p : List Byte) (k : Nat) (f : OuterHeaderCreationFields)
    (h : ParseOuterHeaderCreation p = .ok f) (hk : requiredLen (byteAt p 0) ≤ k) :
    ParseOuterHeaderCreation (p.take k) = .ok f := by
  obtain ⟨h2, hreq⟩ := (parse_isOk_iff p).mp ⟨f, h⟩
  have hr2 : 2 ≤ requiredLen (byteAt p 0) := requiredLen_ge_two _
  have h0 : byteAt (p.take k) 0 = byteAt p 0 := byteAt_take p k 0 (by omega)
  have h1 : byteAt (p.take k) 1 = byteAt p 1 := byteAt_take p k 1 (by omega)
  have hlen : (p.take k).length = min k p.length := by simp
  have hok := parse_ok_of_le (p.take k) (by omega) (by rw [h0]; omega)
  rw [hok]
  have hinit : initFields (p.take k) = initFields p := by
    unfold initFields; rw [h0, h1]
  rw [h0, hinit]
  have hb : 2 + needed (ohcDescs p (byteAt p 0)) ≤ k := by
    rw [needed_ohcDescs]; omega
  rw [← foldSet_congr (ohcDescs_agree_take p k (byteAt p 0)) (initFields p) 2 hb]
  rw [parse_ok_of_le p h2 hreq] at h
  exact h

theorem byteAt_lt (p : List Byte) (i : Nat) : byteAt p i < 256 :=
  (p.getD i default).isLt

theorem testBit_hi (a b : Nat) (hb : b < 256) (i : Nat) :
    (a * 256 + b).testBit (8 + i) = a.testBit i := by
  rw [Nat.testBit_to_div_mod, Nat.testBit_to_div_mod]
  have h1 : (a * 256 + b) / 2 ^ (8 + i) = a / 2 ^ i := by
    rw [pow_add, ← Nat.div_div_eq_div_mul]
    congr 1
    have h28 : (2 : Nat) ^ 8 = 256 := by norm_num
    rw [h28]
    omega
  rw [h1]

/-- Recovering the flag octet from the stored description word:
`uint8((desc & 0xff00) >> 8)` inverts `desc = oct5<<8 | b1`. -/
theorem hiByte (a b : Nat) (ha : a < 256) (hb : b < 256) :
    ((a * 256 + b) &&& 0xff00) >>> 8 = a := by
  apply Nat.eq_of_testBit_eq
  intro i
  rw [Nat.testBit_shiftRight, Nat.testBit_land, testBit_hi a b hb i]
  by_cases hi : i < 8
  · have hm : (0xff00 : Nat).testBit (8 + i) = true := by
      interval_cases i <;> decide
    rw [hm, Bool.and_true]
  · have h8 : (256 : Nat) = 2 ^ 8 := by norm_num
    have hle : (2 : Nat) ^ 8 ≤ 2 ^ i := Nat.pow_le_pow_right (by norm_num) (by omega)
    have hz : a.testBit i = false := Nat.testBit_eq_false_of_lt (by omega)
    rw [hz, Bool.false_and]

theorem and_pow_ne (a k : Nat) : (a &&& 2 ^ k != 0) = a.testBit k := by
  rw [Nat.and_two_pow]
  cases h : a.testBit k <;> simp [h]

theorem foldSet_inv {F : Type} (P : F → Prop) :
    ∀ (ds : List (FieldDesc F)) (f : F) (off : Nat),
      (∀ d ∈ ds, ∀ g o, P g → P (d.set g o)) → P f → P (foldSet ds f off) := by
  intro ds
  induction ds with
  | nil => intro f off _ hf; exact hf
  | cons d ds ih =>
    intro f off hset hf
    by_cases hp : d.present
    · rw [show foldSet (d :: ds) f off = foldSet ds (d.set f off) (off + d.width) by
        simp [foldSet, hp]]
      exact ih _ _ (fun d hd => hset d (List.mem_cons_of_mem _ hd))
        (hset d (List.mem_cons_self _ _) _ _ hf)
    · rw [show foldSet (d :: ds) f off = foldSet ds f off by simp [foldSet, hp]]
      exact ih _ _ (fun d hd => hset d (List.mem_cons_of_mem _ hd)) hf

theorem parse_ok_result (p : List Byte) (f : OuterHeaderCreationFields)
    (h : ParseOuterHeaderCreation p = .ok f) :
    f = foldSet (ohcDescs p (byteAt p 0)) (initFields p) 2 := by
  obtain ⟨h2, hreq⟩ := (parse_isOk_iff p).mp ⟨f, h⟩
  rw [parse_ok_of_le p h2 hreq] at h
  exact (Except.ok.inj h).symm

theorem desc_of_ok (p : List Byte) (f : OuterHeaderCreationFields)
    (h : ParseOuterHeaderCreation p = .ok f) :
    f.OuterHeaderCreationDescription = byteAt p 0 * 256 + byteAt p 1 := by
  rw [parse_ok_result p f h]
  refine foldSet_inv
    (fun g : OuterHeaderCreationFields =>
      g.OuterHeaderCreationDescription = byteAt p 0 * 256 + byteAt p 1)
    _ _ _ ?_ rfl
  intro d hd g o hg
  simp [ohcDescs] at hd
  rcases hd with rfl | rfl | rfl | rfl | rfl | rfl <;> simpa using hg

/-- C1: the payload `C1 00 | 0000000F | 0A010203 | AABBCC | DDEEFF` decodes
to description 0xC100, TEID 15, IPv4 10.1.2.3, C-TAG 0xAABBCC and
S-TAG 0xDDEEFF; its 16 bytes are exactly the 2-byte description plus the
widths 4 (TEID) + 4 (IPv4) + 3 (C-TAG) + 3 (S-TAG) of the flag-selected
sub-fields read in canonical order — in particular C-TAG and S-TAG consume
3 bytes each, not 4, or the 16-byte payload could not decode to these
values. -/
theorem c1_ctag_stag_decode :
    ParseOuterHeaderCreation
        [0xC1, 0x00, 0x00, 0x00, 0x00, 0x0F, 0x0A, 0x01, 0x02, 0x03,
         0xAA, 0xBB, 0xCC, 0xDD, 0xEE, 0xFF] =
      .ok { OuterHeaderCreationDescription := 0xC100, TEID := 15,
            IPv4Address := some [0x0A, 0x01, 0x02, 0x03],
            CTag := 0xAABBCC, STag := 0xDDEEFF } ∧
    requiredLen 0xC1 = 2 + (4 + 4 + 3 + 3) := by
  constructor
  · rfl
  · rfl

/-- C2: on every successful decode, the six presence accessors recomputed
from the stored description's high byte agree with the presence conditions
the decoder evaluated on the payload's flag octet, and each equals the
specified bit test (bit 1 = least significant = `testBit 0`). -/
theorem c2_presence_accessors (p : List Byte) (f : OuterHeaderCreationFields)
    (h : ParseOuterHeaderCreation p = .ok f) :
    (f.HasTEID = teidPresent (byteAt p 0) ∧
     f.HasIPv4 = ipv4Present (byteAt p 0) ∧
     f.HasIPv6 = ipv6Present (byteAt p 0) ∧
     f.HasPortNumber = portPresent (byteAt p 0) ∧
     f.HasCTag = ctagPresent (byteAt p 0) ∧
     f.HasSTag = stagPresent (byteAt p 0)) ∧
    (f.HasTEID = ((byteAt p 0).testBit 0 || (byteAt p 0).testBit 1) ∧
     f.HasIPv4 = ((byteAt p 0).testBit 0 || (byteAt p 0).testBit 2 || (byteAt p 0).testBit 4) ∧
     f.HasIPv6 = ((byteAt p 0).testBit 1 || (byteAt p 0).testBit 3 || (byteAt p 0).testBit 5) ∧
     f.HasPortNumber = ((byteAt p 0).testBit 2 || (byteAt p 0).testBit 3) ∧
     f.HasCTag = (byteAt p 0).testBit 6 ∧
     f.HasSTag = (byteAt p 0).testBit 7) := by
  have hacc : (f.OuterHeaderCreationDescription &&& 0xff00) >>> 8 = byteAt p 0 := by
    rw [desc_of_ok p f h, hiByte (byteAt p 0) (byteAt p 1) (byteAt_lt p 0) (byteAt_lt p 1)]
  have b0 : (byteAt p 0 &&& 1 != 0) = (byteAt p 0).testBit 0 := by
    simpa using and_pow_ne (byteAt p 0) 0
  have b1 : (byteAt p 0 &&& 2 != 0) = (byteAt p 0).testBit 1 := by
    simpa using and_pow_ne (byteAt p 0) 1
  have b2 : (byteAt p 0 &&& 4 != 0) = (byteAt p 0).testBit 2 := by
    simpa using and_pow_ne (byteAt p 0) 2
  have b3 : (byteAt p 0 &&& 8 != 0) = (byteAt p 0).testBit 3 := by
    simpa using and_pow_ne (byteAt p 0) 3
  have b4 : (byteAt p 0 &&& 16 != 0) = (byteAt p 0).testBit 4 := by
    simpa using and_pow_ne (byteAt p 0) 4
  have b5 : (byteAt p 0 &&& 32 != 0) = (byteAt p 0).testBit 5 := by
    simpa using and_pow_ne (byteAt p 0) 5
  have b6 : (byteAt p 0 &&& 64 != 0) = (byteAt p 0).testBit 6 := by
    simpa using and_pow_ne (byteAt p 0) 6
  have b7 : (byteAt p 0 &&& 128 != 0) = (byteAt p 0).testBit 7 := by
    simpa using and_pow_ne (byteAt p 0) 7
  constructor
  · refine ⟨?_, ?_, ?_, ?_, ?_, ?_⟩ <;>
      simp only [OuterHeaderCreationFields.HasTEID, OuterHeaderCreationFields.HasIPv4,
        OuterHeaderCreationFields.HasIPv6, OuterHeaderCreationFields.HasPortNumber,
        OuterHeaderCreationFields.HasCTag, OuterHeaderCreationFields.HasSTag,
        teidPresent, ipv4Present, ipv6Present, portPresent, ctagPresent, stagPresent,
        hacc]
  · refine ⟨?_, ?_, ?_, ?_, ?_, ?_⟩ <;>
      simp only [OuterHeaderCreationFields.HasTEID, OuterHeaderCreationFields.HasIPv4,
        OuterHeaderCreationFields.HasIPv6, OuterHeaderCreationFields.HasPortNumber,
        OuterHeaderCreationFields.HasCTag, OuterHeaderCreationFields.HasSTag,
        hacc, b0, b1, b2, b3, b4, b5, b6, b7]

/-- Witness for C2 at spec scenario 1's payload. -/
theorem c2_presence_accessors_witness :
    (sampleFields1.HasTEID = teidPresent (byteAt samplePayload1 0) ∧
     sampleFields1.HasIPv4 = ipv4Present (byteAt samplePayload1 0) ∧
     sampleFields1.HasIPv6 = ipv6Present (byteAt samplePayload1 0) ∧
     sampleFields1.HasPortNumber = portPresent (byteAt samplePayload1 0) ∧
     sampleFields1.HasCTag = ctagPresent (byteAt samplePayload1 0) ∧
     sampleFields1.HasSTag = stagPresent (byteAt samplePayload1 0)) ∧
    (sampleFields1.HasTEID =
        ((byteAt samplePayload1 0).testBit 0 || (byteAt samplePayload1 0).testBit 1) ∧
     sampleFields1.HasIPv4 =
        ((byteAt samplePayload1 0).testBit 0 || (byteAt samplePayload1 0).testBit 2 ||
          (byteAt samplePayload1 0).testBit 4) ∧
     sampleFields1.HasIPv6 =
        ((byteAt samplePayload1 0).testBit 1 || (byteAt samplePayload1 0).testBit 3 ||
          (byteAt samplePayload1 0).testBit 5) ∧
     sampleFields1.HasPortNumber =
        ((byteAt samplePayload1 0).testBit 2 || (byteAt samplePayload1 0).testBit 3) ∧
     sampleFields1.HasCTag = (byteAt samplePayload1 0).testBit 6 ∧
     sampleFields1.HasSTag = (byteAt samplePayload1 0).testBit 7) :=
  c2_presence_accessors samplePayload1 sampleFields1 (by rfl)

/-- C5: whenever the flag octet selects a sub-field for which too few bytes
remain at its cursor position, the decoder fails at the FIRST such
sub-field, with the error string that names that sub-field and the offset
of the shortfall; no result is produced (`Except.error`, i.e. the Go
function returns a nil pointer with the error). -/
theorem c5_truncated_field (p : List Byte) (n : String) (o : Nat)
    (h2 : 2 ≤ p.length)
    (h : firstShortD p.length (ohcDescs p (byteAt p 0)) 2 = some (n, o)) :
    ParseOuterHeaderCreation p = .error (insufficientMsg n o) :=
  parse_err_of_firstShort p n o h2 h

/-- Witness for C5 at spec scenario 7 (`01 00 | 000000`): TEID needs 4
bytes but only 3 remain at offset 2. -/
theorem c5_truncated_field_witness :
    ParseOuterHeaderCreation [0x01, 0x00, 0x00, 0x00, 0x00] =
      .error (insufficientMsg ("TEID") 2) :=
  c5_truncated_field [0x01, 0x00, 0x00, 0x00, 0x00] "TEID" 2 (by decide) (by rfl)

/-- C6: payloads of length 0 or 1 are rejected with the fixed
"payload too short" error, whose text contains "too short"; no result is
produced. -/
theorem c6_too_short (p : List Byte) (h : p.length = 0 ∨ p.length = 1) :
    ParseOuterHeaderCreation p = .error tooShortMsg ∧
      "too short".data <:+: tooShortMsg.data :=
  ⟨parse_err_short p (by omega), by decide⟩

/-- Witness for C6 at the empty payload. -/
theorem c6_too_short_witness :
    ParseOuterHeaderCreation ([] : List Byte) = .error tooShortMsg ∧
      "too short".data <:+: tooShortMsg.data :=
  c6_too_short [] (by decide)

/-- C8: on every successful decode, CTag and STag are below 2^24 — each is
either the Go zero value 0 or a 3-byte big-endian read, never 4 bytes. -/
theorem c8_tag_bounds (p : List Byte) (f : OuterHeaderCreationFields)
    (h : ParseOuterHeaderCreation p = .ok f) :
    f.CTag < 2 ^ 24 ∧ f.STag < 2 ^ 24 := by
  have h24 : (2 : Nat) ^ 24 = 16777216 := by norm_num
  have hbe3 : ∀ o : Nat, be3 p o < 2 ^ 24 := by
    intro o
    have x0 := byteAt_lt p o
    have x1 := byteAt_lt p (o + 1)
    have x2 := byteAt_lt p (o + 2)
    unfold be3
    omega
  rw [parse_ok_result p f h]
  refine foldSet_inv
    (fun g : OuterHeaderCreationFields => g.CTag < 2 ^ 24 ∧ g.STag < 2 ^ 24)
    _ _ _ ?_ ⟨by simp [initFields], by simp [initFields]⟩
  intro d hd g o hg
  simp [ohcDescs] at hd
  rcases hd with rfl | rfl | rfl | rfl | rfl | rfl
  · exact ⟨by simpa using hg.1, by simpa using hg.2⟩
  · exact ⟨by simpa using hg.1, by simpa using hg.2⟩
  · exact ⟨by simpa using hg.1, by simpa using hg.2⟩
  · exact ⟨by simpa using hg.1, by simpa using hg.2⟩
  · exact ⟨by simpa using hbe3 o, by simpa using hg.2⟩
  · exact ⟨by simpa using hg.1, by simpa using hbe3 o⟩

/-- C3 as stated is false: `00 00 00` (no flag bits set, one trailing byte)
decodes successfully at length 3, yet its truncation to length 2 < 3 also
decodes successfully instead of producing a "truncated field" error —
success needs only the 2-byte header plus the present sub-fields' widths,
not the full original length. -/
theorem c3_truncation_counterexample :
    ParseOuterHeaderCreation [0x00, 0x00, 0x00] =
      .ok { OuterHeaderCreationDescription := 0 } ∧
    (([0x00, 0x00, 0x00] : List Byte).take 2).length <
      ([0x00, 0x00, 0x00] : List Byte).length ∧
    ParseOuterHeaderCreation (([0x00, 0x00, 0x00] : List Byte).take 2) =
      .ok { OuterHeaderCreationDescription := 0 } := by
  refine ⟨rfl, by decide, rfl⟩

/-- C3 amended: if a payload decodes successfully, truncating it to length
`k` yields (a) the "too short" header error when `k < 2`; (b) when
`2 ≤ k < 2 +` (summed widths of present sub-fields), the "truncated field"
error naming the first sub-field that no longer fits and its offset;
(c) an identical successful decode when `k` still covers every present
sub-field. -/
theorem c3_truncation_amended (p : List Byte) (f : OuterHeaderCreationFields)
    (k : Nat) (h : ParseOuterHeaderCreation p = .ok f) :
    (k < 2 → ParseOuterHeaderCreation (p.take k) = .error tooShortMsg) ∧
    (2 ≤ k → k < requiredLen (byteAt p 0) →
      ∃ n o, firstShortD k (ohcDescs (p.take k) (byteAt p 0)) 2 = some (n, o) ∧
        ParseOuterHeaderCreation (p.take k) = .error (insufficientMsg n o)) ∧
    (requiredLen (byteAt p 0) ≤ k →
      ParseOuterHeaderCreation (p.take k) = .ok f) := by
  obtain ⟨h2, hreq⟩ := (parse_isOk_iff p).mp ⟨f, h⟩
  refine ⟨?_, ?_, fun hk => parse_take p k f h hk⟩
  · intro hk
    apply parse_err_short
    simp only [List.length_take]
    omega
  · intro hk2 hkr
    have hlen : (p.take k).length = k := by
      simp only [List.length_take]
      omega
    have h0 : byteAt (p.take k) 0 = byteAt p 0 := byteAt_take p k 0 (by omega)
    have hne : firstShortD k (ohcDescs (p.take k) (byteAt p 0)) 2 ≠ none := by
      intro hn
      rw [firstShortD_none_iff k _ 2 (by omega)] at hn
      rw [needed_ohcDescs] at hn
      omega
    obtain ⟨⟨n, o⟩, hsome⟩ := Option.ne_none_iff_exists'.mp hne
    refine ⟨n, o, hsome, ?_⟩
    apply parse_err_of_firstShort (p.take k) n o (by omega)
    rw [hlen, h0]
    exact hsome

/-- Witness for the amended C3: scenario 1's payload (required length 10)
truncated to 5 bytes. -/
theorem c3_truncation_amended_witness :
    (5 < 2 → ParseOuterHeaderCreation (samplePayload1.take 5) = .error tooShortMsg) ∧
    (2 ≤ 5 → 5 < requiredLen (byteAt samplePayload1 0) →
      ∃ n o,
        firstShortD 5 (ohcDescs (samplePayload1.take 5) (byteAt samplePayload1 0)) 2 =
          some (n, o) ∧
        ParseOuterHeaderCreation (samplePayload1.take 5) = .error (insufficientMsg n o)) ∧
    (requiredLen (byteAt samplePayload1 0) ≤ 5 →
      ParseOuterHeaderCreation (samplePayload1.take 5) = .ok sampleFields1) :=
  c3_truncation_amended samplePayload1 sampleFields1 5 (by rfl)

/-- C7: overlapping triggers read a sub-field once. With flag octet 0x05
(bits 1 and 3 both trigger IPv4) the payload carries one TEID, ONE IPv4
and one Port, with Port read right after the single IPv4 copy; with 0x03
(bits 1 and 2 both trigger TEID) one TEID is followed directly by IPv4 and
IPv6. The required lengths count each sub-field's width exactly once. -/
theorem c7_overlapping_flags_single_read :
    (∀ t1 t2 t3 t4 a b c d p1 p2 : Byte,
      ParseOuterHeaderCreation [0x05, 0x00, t1, t2, t3, t4, a, b, c, d, p1, p2] =
        .ok { OuterHeaderCreationDescription := 0x0500,
              TEID := t1.val * 16777216 + t2.val * 65536 + t3.val * 256 + t4.val,
              IPv4Address := some [a, b, c, d],
              PortNumber := p1.val * 256 + p2.val }) ∧
    (∀ t1 t2 t3 t4 a b c d : Byte,
      ParseOuterHeaderCreation
          [0x03, 0x00, t1, t2, t3, t4, a, b, c, d,
           0, 0, 0, 0, 0, 0, 0, 0, 0, 0, 0, 0, 0, 0, 0, 1] =
        .ok { OuterHeaderCreationDescription := 0x0300,
              TEID := t1.val * 16777216 + t2.val * 65536 + t3.val * 256 + t4.val,
              IPv4Address := some [a, b, c, d],
              IPv6Address := some [0, 0, 0, 0, 0, 0, 0, 0, 0, 0, 0, 0, 0, 0, 0, 1] }) ∧
    requiredLen 0x05 = 2 + (4 + 4 + 2) ∧ requiredLen 0x03 = 2 + (4 + 4 + 16) := by
  refine ⟨fun t1 t2 t3 t4 a b c d p1 p2 => ?_, fun t1 t2 t3 t4 a b c d => ?_, rfl, rfl⟩
  · unfold ParseOuterHeaderCreation
    rw [show byteAt [0x05, 0x00, t1, t2, t3, t4, a, b, c, d, p1, p2] 0 = 5 from rfl]
    rfl
  · unfold ParseOuterHeaderCreation
    rw [show byteAt
        [0x03, 0x00, t1, t2, t3, t4, a, b, c, d,
         0, 0, 0, 0, 0, 0, 0, 0, 0, 0, 0, 0, 0, 0, 0, 1] 0 = 3 from rfl]
    rfl

/-- C9: the decoder never requires the whole payload to be consumed —
extra trailing bytes change nothing, and success is exactly "length ≥ 2
and length ≥ 2 + summed widths of the flag-selected sub-fields". -/
theorem c9_trailing_bytes :
    (∀ (p e : List Byte) (f : OuterHeaderCreationFields),
      ParseOuterHeaderCreation p = .ok f →
        ParseOuterHeaderCreation (p ++ e) = .ok f) ∧
    (∀ p : List Byte,
      (∃ f, ParseOuterHeaderCreation p = .ok f) ↔
        2 ≤ p.length ∧ requiredLen (byteAt p 0) ≤ p.length) :=
  ⟨fun p e f h => parse_append p e f h, parse_isOk_iff⟩

/-- Witness for C9: scenario 1's payload with two extra trailing bytes. -/
theorem c9_trailing_bytes_witness :
    ParseOuterHeaderCreation (samplePayload1 ++ [0xAB, 0xCD]) = .ok sampleFields1 ∧
    (∃ f, ParseOuterHeaderCreation samplePayload1 = .ok f) :=
  ⟨c9_trailing_bytes.1 samplePayload1 [0xAB, 0xCD] sampleFields1 (by rfl),
   (c9_trailing_bytes.2 samplePayload1).mpr (by decide)⟩

set_option maxHeartbeats 4000000

/-- C10: the two `ParseOuterHeaderCreation` copies in the repository are
extensionally equal — on every payload they take the same branch and build
the same fields, including identical error strings. -/
theorem c10_copies_equivalent (payload : List Byte) :
    ParseOuterHeaderCreation2 payload = ParseOuterHeaderCreation payload := by
  by_cases h0 : payload.length < 2
  · simp [ParseOuterHeaderCreation, ParseOuterHeaderCreation2, h0, tooShortMsg]
  · unfold ParseOuterHeaderCreation ParseOuterHeaderCreation2
    simp only [if_neg h0, teidPresent, ipv4Present, ipv6Present, portPresent,
      ctagPresent, stagPresent, insufficientMsg, be4, be3, be2, ipBytes,
      runSteps, runStep, ohcDescs, initFields]
    repeat first
    | rfl
    | (split_ifs <;> dsimp only)

set_option maxHeartbeats 200000

/-- Witness for C10 at spec scenario 5's payload. -/
theorem c10_copies_equivalent_witness :
    ParseOuterHeaderCreation2
        [0xC1, 0x00, 0x00, 0x00, 0x00, 0x0F, 0x0A, 0x01, 0x02, 0x03,
         0xAA, 0xBB, 0xCC, 0xDD, 0xEE, 0xFF] =
      ParseOuterHeaderCreation
        [0xC1, 0x00, 0x00, 0x00, 0x00, 0x0F, 0x0A, 0x01, 0x02, 0x03,
         0xAA, 0xBB, 0xCC, 0xDD, 0xEE, 0xFF] :=
  c10_copies_equivalent
    [0xC1, 0x00, 0x00, 0x00, 0x00, 0x0F, 0x0A, 0x01, 0x02, 0x03,
     0xAA, 0xBB, 0xCC, 0xDD, 0xEE, 0xFF]

/-- C4 is a code bug, witnessed at the repository's own memory-independence
test input: under Go slice semantics the decoder stores, for the IPv4
field, the slice header ⟨6, 4⟩ into the caller's buffer (To4 of a 4-byte
slice returns its receiver without copying), so the test's in-place writes
`payload[6] = 0xff; payload[7] = 0xff` change the stored address from
10.0.0.1 to 255.255.0.1, contradicting the claim, the spec's §3/§8
invariants and the test's own assertion. -/
theorem c4_alias_code_bug :
    ParseOuterHeaderCreationRaw samplePayload1 =
      .ok { OuterHeaderCreationDescription := 0x0100, TEID := 1,
            IPv4Address := some ⟨6, 4⟩ } ∧
    readIP samplePayload1 ⟨6, 4⟩ = [0x0a, 0x00, 0x00, 0x01] ∧
    readIP mutatedPayload1 ⟨6, 4⟩ = [0xff, 0xff, 0x00, 0x01] ∧
    readIP mutatedPayload1 ⟨6, 4⟩ ≠ readIP samplePayload1 ⟨6, 4⟩ := by
  refine ⟨rfl, rfl, rfl, by decide⟩

/-- Witness for C8 at spec scenario 5's payload (both tags present). -/
theorem c8_tag_bounds_witness :
    ({ OuterHeaderCreationDescription := 0xC100, TEID := 15,
       IPv4Address := some [0x0A, 0x01, 0x02, 0x03],
       CTag := 0xAABBCC, STag := 0xDDEEFF } : OuterHeaderCreationFields).CTag < 2 ^ 24 ∧
    ({ OuterHeaderCreationDescription := 0xC100, TEID := 15,
       IPv4Address := some [0x0A, 0x01, 0x02, 0x03],
       CTag := 0xAABBCC, STag := 0xDDEEFF } : OuterHeaderCreationFields).STag < 2 ^ 24 :=
  c8_tag_bounds
    [0xC1, 0x00, 0x00, 0x00, 0x00, 0x0F, 0x0A, 0x01, 0x02, 0x03,
     0xAA, 0xBB, 0xCC, 0xDD, 0xEE, 0xFF] _ (by rfl)
